import Mathlib

/-!
Verification of the wry macOS WKWebView drag-and-drop bridge
(`src/wkwebview/drag_drop.rs`).

The bridge intercepts four native drag callbacks (`draggingEntered:`,
`draggingUpdated:`, `performDragOperation:`, `draggingExited:`), builds a
structured `DragDropEvent`, passes it to an application-supplied decision
callback stored in a per-instance ivar, and either returns a "consumed"
result or delegates to the cached stock WKWebView implementation.

The embedding below is pure: the objc runtime calls (`draggingLocation`,
`frame`, pasteboard queries) become fields of explicit `DragInfo` and
`Surface` records; the lazily-cached stock implementations
(`OBJC_DRAGGING_ENTERED` etc.) become a record of functions `Defaults`;
each interceptor returns, besides its value, the list of default
implementations it invoked and the list of structured events it dispatched
to the decision callback, so that "never invokes the default" and
"invoked exactly once" are provable statements.  Dereferencing the handler
ivar while it is still null (undefined behaviour in the source) is
modelled by `Option`: `none` marks the undefined execution.
-/

namespace WryDragDrop

/-- The objc `NSDragOperation` is `NSUInteger`; the bridge only compares it
to `0` and passes it through, so it is embedded as `Nat`. -/
abbrev NSDragOperation := Nat

/-- Source line 29: `const NSDragOperationCopy: NSDragOperation = 1`. -/
def NSDragOperationCopy : NSDragOperation := 1

/-- Truncation of a rational toward zero (T-rounding of the numerator by
the denominator), the rounding used by Rust float to integer `as` casts. -/
def ratTrunc (q : ℚ) : ℤ :=
  q.num.tdiv q.den

/-- Rust `as i32` on a float value: truncate toward zero, saturating at the
`i32` bounds.  (`NaN` has no rational counterpart, so it is absent.) -/
def castI32 (q : ℚ) : ℤ :=
  max (-(2 ^ 31)) (min (2 ^ 31 - 1) (ratTrunc q))

/-- Source lines 109/133/149:
`(dl.x as i32, (frame.size.height - dl.y) as i32)` — the coordinate
translation from the native bottom-left origin to a top-left origin. -/
def translatePosition (x y h : ℚ) : ℤ × ℤ :=
  (castI32 x, castI32 (h - y))

/-- A dropped path.  `PathBuf::from` of the lossily decoded string keeps the
decoded text unchanged, so a path is its sequence of characters. -/
abbrev Path := List Char

/-- The application-facing event union (crate root `DragDropEvent`, shape
fixed by its construction sites in `drag_drop.rs` lines 111/135/151/161). -/
inductive DragDropEvent where
  | Enter (paths : List Path) (position : ℤ × ℤ)
  | Over (position : ℤ × ℤ)
  | Drop (paths : List Path) (position : ℤ × ℤ)
  | Leave
deriving DecidableEq

/-- The data the interceptors read from the native drag session handle
(`drag_info: id`): the pointer location (`draggingLocation`), whether the
pasteboard advertises `NSFilenamesPboardType`
(`availableTypeFromArray` returning `Some`), and the property list for that
type, each entry the NUL-terminated UTF-8 byte buffer returned by the
string's `UTF8String()`. -/
structure DragInfo where
  draggingLocation : ℚ × ℚ
  hasFilenamesPboardType : Bool
  filenamesPropertyList : List (List Nat)

/-- The overridden webview object as the interceptors see it: its frame
height (`msg_send![this, frame]`) and the `DragDropHandler` ivar.  The
ivar holds a raw pointer, null until `set_drag_drop_handler` runs
(`add_ivar` zero-initialises it); `none` models the null pointer and
`some` the pointer to the boxed handler. -/
structure Surface where
  frameHeight : ℚ
  dragDropHandlerIvar : Option (DragDropEvent → Bool)

/-- A freshly declared webview object: `add_drag_drop_methods` line 168 adds
the `DragDropHandler` ivar, which starts out null. -/
def freshSurface (h : ℚ) : Surface :=
  { frameHeight := h, dragDropHandlerIvar := none }

/-- Source lines 73-80: box the handler, store the raw pointer in the
`DragDropHandler` ivar, return the pointer as the owning handle. -/
def set_drag_drop_handler (webview : Surface)
    (handler : DragDropEvent → Bool) :
    Surface × (DragDropEvent → Bool) :=
  ({ webview with dragDropHandlerIvar := some handler }, handler)

/-- Source lines 83-86: read the `DragDropHandler` ivar and dereference it.
A null ivar (no handler attached yet) is undefined behaviour in the
source; here the dereference is made explicit as an `Option`. -/
def get_handler (this : Surface) : Option (DragDropEvent → Bool) :=
  this.dragDropHandlerIvar

/-- UTF-8 continuation byte: `0x80 ≤ b ≤ 0xBF`. -/
def isCont (b : Nat) : Bool :=
  0x80 ≤ b && b ≤ 0xBF

/-- Admissible first continuation byte after a three-byte lead `b`
(excludes overlong encodings and surrogates, as Rust's UTF-8 validation
does). -/
def cont3ok (b b1 : Nat) : Bool :=
  if b = 0xE0 then 0xA0 ≤ b1 && b1 ≤ 0xBF
  else if b = 0xED then 0x80 ≤ b1 && b1 ≤ 0x9F
  else isCont b1

/-- Admissible first continuation byte after a four-byte lead `b`
(excludes overlong encodings and code points above `U+10FFFF`). -/
def cont4ok (b b1 : Nat) : Bool :=
  if b = 0xF0 then 0x90 ≤ b1 && b1 ≤ 0xBF
  else if b = 0xF4 then 0x80 ≤ b1 && b1 ≤ 0x8F
  else isCont b1

/-- The Unicode replacement character `U+FFFD`. -/
def replacementChar : Char := Char.ofNat 0xFFFD

/-- Rust's `to_string_lossy` / `String::from_utf8_lossy`: decode UTF-8,
substituting `U+FFFD` for each maximal invalid subpart.  An invalid or
truncated sequence never fails, it yields the replacement character and
decoding resumes at the next byte after the consumed prefix. -/
def utf8Lossy : List Nat → List Char
  | [] => []
  | b :: rest =>
    if b ≤ 0x7F then
      Char.ofNat b :: utf8Lossy rest
    else if 0xC2 ≤ b ∧ b ≤ 0xDF then
      match rest with
      | [] => [replacementChar]
      | b1 :: rest1 =>
        if isCont b1 then
          Char.ofNat ((b - 0xC0) * 64 + (b1 - 0x80)) :: utf8Lossy rest1
        else
          replacementChar :: utf8Lossy (b1 :: rest1)
    else if 0xE0 ≤ b ∧ b ≤ 0xEF then
      match rest with
      | [] => [replacementChar]
      | b1 :: rest1 =>
        if cont3ok b b1 then
          match rest1 with
          | [] => replacementChar :: []
          | b2 :: rest2 =>
            if isCont b2 then
              Char.ofNat ((b - 0xE0) * 4096 + (b1 - 0x80) * 64 + (b2 - 0x80))
                :: utf8Lossy rest2
            else
              replacementChar :: utf8Lossy (b2 :: rest2)
        else
          replacementChar :: utf8Lossy (b1 :: rest1)
    else if 0xF0 ≤ b ∧ b ≤ 0xF4 then
      match rest with
      | [] => [replacementChar]
      | b1 :: rest1 =>
        if cont4ok b b1 then
          match rest1 with
          | [] => replacementChar :: []
          | b2 :: rest2 =>
            if isCont b2 then
              match rest2 with
              | [] => replacementChar :: []
              | b3 :: rest3 =>
                if isCont b3 then
                  Char.ofNat ((b - 0xF0) * 262144 + (b1 - 0x80) * 4096
                      + (b2 - 0x80) * 64 + (b3 - 0x80))
                    :: utf8Lossy rest3
                else
                  replacementChar :: utf8Lossy (b3 :: rest3)
            else
              replacementChar :: utf8Lossy (b2 :: rest2)
        else
          replacementChar :: utf8Lossy (b1 :: rest1)
    else
      replacementChar :: utf8Lossy rest

/-- `CStr::from_ptr`: the bytes of the buffer up to (excluding) the first
NUL terminator. -/
def cstrFromPtr (bs : List Nat) : List Nat :=
  bs.takeWhile (fun b => b ≠ 0)

/-- Source lines 96-100: one property-list string to a path —
`PathBuf::from(CStr::from_ptr(path.UTF8String()).to_string_lossy())`. -/
def decodeCStringPath (bs : List Nat) : Path :=
  utf8Lossy (cstrFromPtr bs)

/-- Source lines 88-104 `collect_paths`: if the pasteboard advertises
`NSFilenamesPboardType`, decode every string of the property list in order;
otherwise the collected list stays empty. -/
def collect_paths (drag_info : DragInfo) : List Path :=
  if drag_info.hasFilenamesPboardType then
    drag_info.filenamesPropertyList.map decodeCStringPath
  else
    []

/-- The four stock WKWebView implementations, resolved lazily and cached in
the statics `OBJC_DRAGGING_ENTERED`, `OBJC_DRAGGING_UPDATED`,
`OBJC_PERFORM_DRAG_OPERATION`, `OBJC_DRAGGING_EXITED` (lines 33-70).  After
the first forcing they are fixed functions of the receiver and the drag
session; the constant selector argument is omitted. -/
structure Defaults where
  draggingEntered : Surface → DragInfo → NSDragOperation
  draggingUpdated : Surface → DragInfo → NSDragOperation
  performDragOperation : Surface → DragInfo → Bool
  draggingExited : Surface → DragInfo → Unit

/-- Which cached default implementation an interceptor invoked. -/
inductive DefaultCall where
  | entered
  | updated
  | perform
  | exited
deriving DecidableEq

/-- The observable outcome of one interceptor call: the value returned to
the toolkit, the cached default implementations invoked (in order), and the
structured events dispatched to the decision callback (in order). -/
structure Intercepted (α : Type) where
  result : α
  defaultCalls : List DefaultCall
  dispatched : List DragDropEvent
deriving DecidableEq

/-- The position each interceptor reports (lines 107-109, 131-133,
147-149): `draggingLocation` of the session translated against the frame
height of the receiver. -/
def draggingPosition (this : Surface) (drag_info : DragInfo) : ℤ × ℤ :=
  let dl := drag_info.draggingLocation
  translatePosition dl.1 dl.2 this.frameHeight

/-- Source lines 106-125 `dragging_updated`: translate the pointer
location, dispatch `Over` to the handler; if it declines, delegate to the
cached `draggingUpdated` and replace its `0` ("no operation") result with
`NSDragOperationCopy`, keeping any other code; if it consumes, return
`NSDragOperationCopy`.  `none` is the undefined execution with a null
handler ivar. -/
def dragging_updated (defaults : Defaults) (this : Surface)
    (drag_info : DragInfo) : Option (Intercepted NSDragOperation) :=
  let position := draggingPosition this drag_info
  match get_handler this with
  | none => none
  | some listener =>
    let ev := DragDropEvent.Over position
    if ! listener ev then
      let os_operation := defaults.draggingUpdated this drag_info
      if os_operation = 0 then
        some ⟨NSDragOperationCopy, [DefaultCall.updated], [ev]⟩
      else
        some ⟨os_operation, [DefaultCall.updated], [ev]⟩
    else
      some ⟨NSDragOperationCopy, [], [ev]⟩

/-- Source lines 127-141 `dragging_entered`: collect the paths, translate
the pointer location, dispatch `Enter`; if the handler declines, delegate
to the cached `draggingEntered` and return its result verbatim; if it
consumes, return `NSDragOperationCopy`. -/
def dragging_entered (defaults : Defaults) (this : Surface)
    (drag_info : DragInfo) : Option (Intercepted NSDragOperation) :=
  match get_handler this with
  | none => none
  | some listener =>
    let paths := collect_paths drag_info
    let position := draggingPosition this drag_info
    let ev := DragDropEvent.Enter paths position
    if ! listener ev then
      some ⟨defaults.draggingEntered this drag_info,
        [DefaultCall.entered], [ev]⟩
    else
      some ⟨NSDragOperationCopy, [], [ev]⟩

/-- Source lines 143-157 `perform_drag_operation`: collect the paths,
translate the pointer location, dispatch `Drop`; if the handler declines,
delegate to the cached `performDragOperation` and return its boolean
verbatim; if it consumes, return `Bool::YES`. -/
def perform_drag_operation (defaults : Defaults) (this : Surface)
    (drag_info : DragInfo) : Option (Intercepted Bool) :=
  match get_handler this with
  | none => none
  | some listener =>
    let paths := collect_paths drag_info
    let position := draggingPosition this drag_info
    let ev := DragDropEvent.Drop paths position
    if ! listener ev then
      some ⟨defaults.performDragOperation this drag_info,
        [DefaultCall.perform], [ev]⟩
    else
      some ⟨true, [], [ev]⟩

/-- Source lines 159-165 `dragging_exited`: dispatch `Leave`; if the
handler declines, invoke the cached `draggingExited` (for its effect only);
either way nothing is returned. -/
def dragging_exited (defaults : Defaults) (this : Surface)
    (drag_info : DragInfo) : Option (Intercepted Unit) :=
  match get_handler this with
  | none => none
  | some listener =>
    let ev := DragDropEvent.Leave
    if ! listener ev then
      let _ := defaults.draggingExited this drag_info
      some ⟨(), [DefaultCall.exited], [ev]⟩
    else
      some ⟨(), [], [ev]⟩

/-- Distinct webview instances are distinct objc objects; a heap of
surfaces indexed by object identity. -/
abbrev SurfaceId := Nat

/-- The heap: which surface lives at each object identity. -/
abbrev World := SurfaceId → Surface

/-- `set_drag_drop_handler` applied to the object at identity `s` of the
heap: only that object's ivar changes. -/
def attachAt (w : World) (s : SurfaceId)
    (handler : DragDropEvent → Bool) : World :=
  fun t => if t = s then (set_drag_drop_handler (w t) handler).1 else w t

/-- One native callback from the toolkit, with the drag session it passes:
the toolkit alone drives the session. -/
inductive NativeCall where
  | entered (drag_info : DragInfo)
  | updated (drag_info : DragInfo)
  | perform (drag_info : DragInfo)
  | exited (drag_info : DragInfo)

/-- The value an interceptor hands back to the toolkit. -/
inductive CallResult where
  | operation (n : NSDragOperation)
  | success (b : Bool)
  | nothing
deriving DecidableEq

/-- Dispatch one native callback to the matching interceptor (the method
table built by `add_drag_drop_methods`, lines 167-189), with the results
wrapped into one type. -/
def interceptCall (defaults : Defaults) (this : Surface) :
    NativeCall → Option (Intercepted CallResult)
  | NativeCall.entered i =>
    match dragging_entered defaults this i with
    | none => none
    | some r => some ⟨CallResult.operation r.result, r.defaultCalls, r.dispatched⟩
  | NativeCall.updated i =>
    match dragging_updated defaults this i with
    | none => none
    | some r => some ⟨CallResult.operation r.result, r.defaultCalls, r.dispatched⟩
  | NativeCall.perform i =>
    match perform_drag_operation defaults this i with
    | none => none
    | some r => some ⟨CallResult.success r.result, r.defaultCalls, r.dispatched⟩
  | NativeCall.exited i =>
    match dragging_exited defaults this i with
    | none => none
    | some r => some ⟨CallResult.nothing, r.defaultCalls, r.dispatched⟩

/-- A whole drag session: the toolkit invokes the interceptors one after
the other.  The interceptors keep no state of their own between calls —
the cached defaults are immutable after resolution and the handler ivar is
externally owned — so the session is the pointwise image of the call
list. -/
def runSession (defaults : Defaults) (this : Surface)
    (calls : List NativeCall) : List (Option (Intercepted CallResult)) :=
  calls.map (interceptCall defaults this)

/-- A decision callback that consumes every event. -/
def consumeAll : DragDropEvent → Bool := fun _ => true

/-- A decision callback that declines every event. -/
def declineAll : DragDropEvent → Bool := fun _ => false

/-- A concrete surface of frame height 100 whose handler consumes. -/
def surfConsume : Surface := { frameHeight := 100, dragDropHandlerIvar := some consumeAll }

/-- A concrete surface of frame height 100 whose handler declines. -/
def surfDecline : Surface := { frameHeight := 100, dragDropHandlerIvar := some declineAll }

/-- A concrete drag session: pointer at native `(10, 90)`, a filenames
pasteboard with the single NUL-terminated entry `"/a"`. -/
def infoFile : DragInfo :=
  { draggingLocation := (10, 90)
    hasFilenamesPboardType := true
    filenamesPropertyList := [[47, 97, 0]] }

/-- A concrete drag session whose pasteboard carries no filenames type. -/
def infoNoFile : DragInfo :=
  { draggingLocation := (10, 90)
    hasFilenamesPboardType := false
    filenamesPropertyList := [] }

/-- Concrete cached defaults: hover reports the sentinel `0`, enter
reports `7`, drop reports failure. -/
def defaults0 : Defaults :=
  { draggingEntered := fun _ _ => 7
    draggingUpdated := fun _ _ => 0
    performDragOperation := fun _ _ => false
    draggingExited := fun _ _ => () }

/-- A concrete heap where every surface is still fresh. -/
def world0 : World := fun _ => freshSurface 100

/-- C1: for each of the four intercepted operations, when the decision
callback returns `true` on the structured event built from the call, the
corresponding cached default implementation is never invoked during that
call (the list of default invocations stays empty). -/
theorem claim_c1_consumed_skips_defaults (d : Defaults) (fh : ℚ)
    (listener : DragDropEvent → Bool) (i : DragInfo) :
    (listener (DragDropEvent.Enter (collect_paths i)
        (draggingPosition ⟨fh, some listener⟩ i)) = true →
      (dragging_entered d ⟨fh, some listener⟩ i).map Intercepted.defaultCalls
        = some []) ∧
    (listener (DragDropEvent.Over (draggingPosition ⟨fh, some listener⟩ i))
        = true →
      (dragging_updated d ⟨fh, some listener⟩ i).map Intercepted.defaultCalls
        = some []) ∧
    (listener (DragDropEvent.Drop (collect_paths i)
        (draggingPosition ⟨fh, some listener⟩ i)) = true →
      (perform_drag_operation d ⟨fh, some listener⟩ i).map
        Intercepted.defaultCalls = some []) ∧
    (listener DragDropEvent.Leave = true →
      (dragging_exited d ⟨fh, some listener⟩ i).map Intercepted.defaultCalls
        = some []) := by
  refine ⟨fun h => ?_, fun h => ?_, fun h => ?_, fun h => ?_⟩
  · simp [dragging_entered, get_handler, h]
  · simp [dragging_updated, get_handler, h]
  · simp [perform_drag_operation, get_handler, h]
  · simp [dragging_exited, get_handler, h]

/-- Closed instance of C1: a handler that consumes everything, the hover
interceptor, concrete defaults, session and surface. -/
theorem claim_c1_witness :
    consumeAll (DragDropEvent.Over
      (draggingPosition ⟨100, some consumeAll⟩ infoFile)) = true ∧
    (dragging_updated defaults0 ⟨100, some consumeAll⟩ infoFile).map
      Intercepted.defaultCalls = some [] :=
  ⟨rfl, (claim_c1_consumed_skips_defaults defaults0 100 consumeAll
    infoFile).2.1 rfl⟩

/-- C2: on a hover-update where the decision callback declines, the bridge
returns `NSDragOperationCopy` when the cached default reports the sentinel
`0`, and returns the default's code unchanged when it is non-zero. -/
theorem claim_c2_sentinel_replaced_on_decline (d : Defaults) (fh : ℚ)
    (listener : DragDropEvent → Bool) (i : DragInfo)
    (hfalse : listener (DragDropEvent.Over
      (draggingPosition ⟨fh, some listener⟩ i)) = false) :
    (d.draggingUpdated ⟨fh, some listener⟩ i = 0 →
      (dragging_updated d ⟨fh, some listener⟩ i).map Intercepted.result
        = some NSDragOperationCopy) ∧
    (d.draggingUpdated ⟨fh, some listener⟩ i ≠ 0 →
      (dragging_updated d ⟨fh, some listener⟩ i).map Intercepted.result
        = some (d.draggingUpdated ⟨fh, some listener⟩ i)) := by
  constructor
  · intro h0
    simp [dragging_updated, get_handler, hfalse, h0]
  · intro hne
    simp [dragging_updated, get_handler, hfalse, hne]

/-- Closed instance of C2: a declining handler over concrete defaults whose
hover default reports the sentinel; the bridge answers with copy. -/
theorem claim_c2_witness :
    declineAll (DragDropEvent.Over
      (draggingPosition ⟨100, some declineAll⟩ infoFile)) = false ∧
    defaults0.draggingUpdated ⟨100, some declineAll⟩ infoFile = 0 ∧
    (dragging_updated defaults0 ⟨100, some declineAll⟩ infoFile).map
      Intercepted.result = some NSDragOperationCopy :=
  ⟨rfl, rfl, (claim_c2_sentinel_replaced_on_decline defaults0 100 declineAll
    infoFile rfl).1 rfl⟩

/-- C3: when the decision callback consumes, the enter and hover
interceptors return `NSDragOperationCopy`, the drop interceptor returns
success, and the exit interceptor returns with no payload. -/
theorem claim_c3_consumed_results (d : Defaults) (fh : ℚ)
    (listener : DragDropEvent → Bool) (i : DragInfo) :
    (listener (DragDropEvent.Enter (collect_paths i)
        (draggingPosition ⟨fh, some listener⟩ i)) = true →
      (dragging_entered d ⟨fh, some listener⟩ i).map Intercepted.result
        = some NSDragOperationCopy) ∧
    (listener (DragDropEvent.Over (draggingPosition ⟨fh, some listener⟩ i))
        = true →
      (dragging_updated d ⟨fh, some listener⟩ i).map Intercepted.result
        = some NSDragOperationCopy) ∧
    (listener (DragDropEvent.Drop (collect_paths i)
        (draggingPosition ⟨fh, some listener⟩ i)) = true →
      (perform_drag_operation d ⟨fh, some listener⟩ i).map Intercepted.result
        = some true) ∧
    (listener DragDropEvent.Leave = true →
      dragging_exited d ⟨fh, some listener⟩ i =
        some ⟨(), [], [DragDropEvent.Leave]⟩) := by
  refine ⟨fun h => ?_, fun h => ?_, fun h => ?_, fun h => ?_⟩
  · simp [dragging_entered, get_handler, h]
  · simp [dragging_updated, get_handler, h]
  · simp [perform_drag_operation, get_handler, h]
  · simp [dragging_exited, get_handler, h]

/-- Closed instance of C3: the consuming handler makes the drop interceptor
answer success on a concrete session. -/
theorem claim_c3_witness :
    consumeAll (DragDropEvent.Drop (collect_paths infoFile)
      (draggingPosition ⟨100, some consumeAll⟩ infoFile)) = true ∧
    (perform_drag_operation defaults0 ⟨100, some consumeAll⟩ infoFile).map
      Intercepted.result = some true :=
  ⟨rfl, (claim_c3_consumed_results defaults0 100 consumeAll
    infoFile).2.2.1 rfl⟩

/-- C4: when the decision callback declines, the enter interceptor returns
the cached default `draggingEntered` result verbatim, the drop interceptor
returns the cached default `performDragOperation` boolean verbatim, and the
exit interceptor invokes the cached default `draggingExited` exactly once
and returns nothing. -/
theorem claim_c4_declined_delegates_verbatim (d : Defaults) (fh : ℚ)
    (listener : DragDropEvent → Bool) (i : DragInfo) :
    (listener (DragDropEvent.Enter (collect_paths i)
        (draggingPosition ⟨fh, some listener⟩ i)) = false →
      dragging_entered d ⟨fh, some listener⟩ i =
        some ⟨d.draggingEntered ⟨fh, some listener⟩ i, [DefaultCall.entered],
          [DragDropEvent.Enter (collect_paths i)
            (draggingPosition ⟨fh, some listener⟩ i)]⟩) ∧
    (listener (DragDropEvent.Drop (collect_paths i)
        (draggingPosition ⟨fh, some listener⟩ i)) = false →
      perform_drag_operation d ⟨fh, some listener⟩ i =
        some ⟨d.performDragOperation ⟨fh, some listener⟩ i,
          [DefaultCall.perform],
          [DragDropEvent.Drop (collect_paths i)
            (draggingPosition ⟨fh, some listener⟩ i)]⟩) ∧
    (listener DragDropEvent.Leave = false →
      dragging_exited d ⟨fh, some listener⟩ i =
        some ⟨(), [DefaultCall.exited], [DragDropEvent.Leave]⟩) := by
  refine ⟨fun h => ?_, fun h => ?_, fun h => ?_⟩
  · simp [dragging_entered, get_handler, h]
  · simp [perform_drag_operation, get_handler, h]
  · simp [dragging_exited, get_handler, h]

/-- Closed instance of C4: the declining handler makes the exit interceptor
call the cached default exit implementation exactly once. -/
theorem claim_c4_witness :
    declineAll DragDropEvent.Leave = false ∧
    dragging_exited defaults0 ⟨100, some declineAll⟩ infoFile =
      some ⟨(), [DefaultCall.exited], [DragDropEvent.Leave]⟩ :=
  ⟨rfl, (claim_c4_declined_delegates_verbatim defaults0 100 declineAll
    infoFile).2.2 rfl⟩

/-- Truncation toward zero is the identity on integers. -/
theorem ratTrunc_intCast (n : ℤ) : ratTrunc (n : ℚ) = n := by
  simp [ratTrunc, Rat.num_intCast, Rat.den_intCast]

/-- The saturating `as i32` cast is plain truncation whenever the truncated
value lies inside the `i32` range. -/
theorem castI32_eq_ratTrunc (q : ℚ) (h1 : -(2 ^ 31) ≤ ratTrunc q)
    (h2 : ratTrunc q ≤ 2 ^ 31 - 1) : castI32 q = ratTrunc q := by
  rw [castI32, min_eq_right h2, max_eq_right h1]

/-- C5: the reported position is the pair `(x, h - y)` truncated toward
zero — exactly `(castI32 x, castI32 (h - y))`, which equals
`(ratTrunc x, ratTrunc (h - y))` whenever both truncations are in `i32`
range; in particular, for integer inputs with `0 ≤ y ≤ h` and `x`, `h` in
range, the translated coordinates are exactly `x` and `h - y`.  The
translation is a total function with no error values. -/
theorem claim_c5_position_translation :
    (∀ x y h : ℚ, translatePosition x y h = (castI32 x, castI32 (h - y))) ∧
    (∀ x y h : ℚ, -(2 ^ 31) ≤ ratTrunc x → ratTrunc x ≤ 2 ^ 31 - 1 →
      -(2 ^ 31) ≤ ratTrunc (h - y) → ratTrunc (h - y) ≤ 2 ^ 31 - 1 →
      translatePosition x y h = (ratTrunc x, ratTrunc (h - y))) ∧
    (∀ x y h : ℤ, 0 ≤ y → y ≤ h → h ≤ 2 ^ 31 - 1 → -(2 ^ 31) ≤ x →
      x ≤ 2 ^ 31 - 1 →
      translatePosition (x : ℚ) (y : ℚ) (h : ℚ) = (x, h - y)) := by
  refine ⟨fun x y h => rfl, fun x y h hx1 hx2 hy1 hy2 => ?_,
    fun x y h hy0 hyh hh hx1 hx2 => ?_⟩
  · rw [translatePosition, castI32_eq_ratTrunc x hx1 hx2,
      castI32_eq_ratTrunc _ hy1 hy2]
  · have hsub : (h : ℚ) - (y : ℚ) = ((h - y : ℤ) : ℚ) := by push_cast; ring
    have e1 := ratTrunc_intCast x
    have e2 := ratTrunc_intCast (h - y)
    rw [translatePosition, hsub,
      castI32_eq_ratTrunc _ (by rw [e1]; omega) (by rw [e1]; omega),
      castI32_eq_ratTrunc _ (by rw [e2]; omega) (by rw [e2]; omega), e1, e2]

/-- Closed instance of C5: native pointer `(10, 90)` against frame height
`100` is reported at `(10, 10)`, matching the spec's worked scenario. -/
theorem claim_c5_witness :
    (0 : ℤ) ≤ 90 ∧
    translatePosition ((10 : ℤ) : ℚ) ((90 : ℤ) : ℚ) ((100 : ℤ) : ℚ) =
      ((10 : ℤ), (100 : ℤ) - 90) :=
  ⟨by norm_num, claim_c5_position_translation.2.2 10 90 100 (by norm_num)
    (by norm_num) (by norm_num) (by norm_num) (by norm_num)⟩

/-- C6: a payload that does not advertise the filenames content type always
collects the empty path list, and the `Enter` and `Drop` events built from
it carry that concrete empty list. -/
theorem claim_c6_no_filetype_empty_paths (i : DragInfo)
    (hno : i.hasFilenamesPboardType = false) :
    collect_paths i = [] ∧
    (∀ (d : Defaults) (fh : ℚ) (listener : DragDropEvent → Bool)
        (r : Intercepted NSDragOperation),
      dragging_entered d ⟨fh, some listener⟩ i = some r →
      r.dispatched = [DragDropEvent.Enter []
        (draggingPosition ⟨fh, some listener⟩ i)]) ∧
    (∀ (d : Defaults) (fh : ℚ) (listener : DragDropEvent → Bool)
        (r : Intercepted Bool),
      perform_drag_operation d ⟨fh, some listener⟩ i = some r →
      r.dispatched = [DragDropEvent.Drop []
        (draggingPosition ⟨fh, some listener⟩ i)]) := by
  have hcp : collect_paths i = [] := by simp [collect_paths, hno]
  refine ⟨hcp, fun d fh listener r hr => ?_, fun d fh listener r hr => ?_⟩
  · rw [dragging_entered] at hr
    by_cases hb : listener (DragDropEvent.Enter (collect_paths i)
        (draggingPosition ⟨fh, some listener⟩ i))
    · simp [get_handler, hb] at hr
      rw [← hr]
      simp [hcp]
    · simp [get_handler, hb] at hr
      rw [← hr]
      simp [hcp]
  · rw [perform_drag_operation] at hr
    by_cases hb : listener (DragDropEvent.Drop (collect_paths i)
        (draggingPosition ⟨fh, some listener⟩ i))
    · simp [get_handler, hb] at hr
      rw [← hr]
      simp [hcp]
    · simp [get_handler, hb] at hr
      rw [← hr]
      simp [hcp]

/-- Closed instance of C6: the concrete payload with no filenames type
collects no path. -/
theorem claim_c6_witness :
    infoNoFile.hasFilenamesPboardType = false ∧
    collect_paths infoNoFile = [] :=
  ⟨rfl, (claim_c6_no_filetype_empty_paths infoNoFile rfl).1⟩

/-- C7: every interceptor looks up the handler in the receiver's ivar; a
fresh surface has none, and with a null ivar every interceptor is the
undefined execution (`none`) — no structured event is ever dispatched
without a registered handler; with a handler attached, every interceptor
runs and dispatches exactly its structured event. -/
theorem claim_c7_handler_lookup_precondition (d : Defaults) (i : DragInfo) :
    (∀ fh : ℚ, get_handler (freshSurface fh) = none) ∧
    (∀ this : Surface, get_handler this = none →
      dragging_entered d this i = none ∧
      dragging_updated d this i = none ∧
      perform_drag_operation d this i = none ∧
      dragging_exited d this i = none) ∧
    (∀ (this : Surface) (listener : DragDropEvent → Bool),
      get_handler this = some listener →
      (∃ r, dragging_entered d this i = some r ∧
        r.dispatched = [DragDropEvent.Enter (collect_paths i)
          (draggingPosition this i)]) ∧
      (∃ r, dragging_updated d this i = some r ∧
        r.dispatched = [DragDropEvent.Over (draggingPosition this i)]) ∧
      (∃ r, perform_drag_operation d this i = some r ∧
        r.dispatched = [DragDropEvent.Drop (collect_paths i)
          (draggingPosition this i)]) ∧
      (∃ r, dragging_exited d this i = some r ∧
        r.dispatched = [DragDropEvent.Leave])) := by
  refine ⟨fun fh => rfl, fun this hnone => ?_, fun this listener hsome => ?_⟩
  · refine ⟨?_, ?_, ?_, ?_⟩ <;>
      simp [dragging_entered, dragging_updated, perform_drag_operation,
        dragging_exited, hnone]
  · refine ⟨?_, ?_, ?_, ?_⟩
    · by_cases hb : listener (DragDropEvent.Enter (collect_paths i)
          (draggingPosition this i))
      · exact ⟨⟨NSDragOperationCopy, [], [DragDropEvent.Enter
          (collect_paths i) (draggingPosition this i)]⟩,
          by simp [dragging_entered, hsome, hb], rfl⟩
      · exact ⟨⟨d.draggingEntered this i, [DefaultCall.entered],
          [DragDropEvent.Enter (collect_paths i) (draggingPosition this i)]⟩,
          by simp [dragging_entered, hsome, hb], rfl⟩
    · by_cases hb : listener (DragDropEvent.Over (draggingPosition this i))
      · exact ⟨⟨NSDragOperationCopy, [],
          [DragDropEvent.Over (draggingPosition this i)]⟩,
          by simp [dragging_updated, hsome, hb], rfl⟩
      · by_cases h0 : d.draggingUpdated this i = 0
        · exact ⟨⟨NSDragOperationCopy, [DefaultCall.updated],
            [DragDropEvent.Over (draggingPosition this i)]⟩,
            by simp [dragging_updated, hsome, hb, h0], rfl⟩
        · exact ⟨⟨d.draggingUpdated this i, [DefaultCall.updated],
            [DragDropEvent.Over (draggingPosition this i)]⟩,
            by simp [dragging_updated, hsome, hb, h0], rfl⟩
    · by_cases hb : listener (DragDropEvent.Drop (collect_paths i)
          (draggingPosition this i))
      · exact ⟨⟨true, [], [DragDropEvent.Drop (collect_paths i)
          (draggingPosition this i)]⟩,
          by simp [perform_drag_operation, hsome, hb], rfl⟩
      · exact ⟨⟨d.performDragOperation this i, [DefaultCall.perform],
          [DragDropEvent.Drop (collect_paths i) (draggingPosition this i)]⟩,
          by simp [perform_drag_operation, hsome, hb], rfl⟩
    · by_cases hb : listener DragDropEvent.Leave
      · exact ⟨⟨(), [], [DragDropEvent.Leave]⟩,
          by simp [dragging_exited, hsome, hb], rfl⟩
      · exact ⟨⟨(), [DefaultCall.exited], [DragDropEvent.Leave]⟩,
          by simp [dragging_exited, hsome, hb], rfl⟩

/-- Closed instance of C7: the fresh surface has no handler and its enter
interceptor is the undefined execution. -/
theorem claim_c7_witness :
    get_handler (freshSurface 100) = none ∧
    dragging_entered defaults0 (freshSurface 100) infoFile = none :=
  ⟨rfl, ((claim_c7_handler_lookup_precondition defaults0 infoFile).2.1
    (freshSurface 100) rfl).1⟩

/-- C8: attaching stores the handler in that surface's slot (overwriting
any previous one) and returns it as the owning handle; after attaching to
two distinct surfaces, the surface at identity `a` holds exactly the
handler attached to `a`, so dispatching on `a` behaves exactly as with
`a`'s handler alone and never consults `b`'s. -/
theorem claim_c8_attach_lookup_isolation :
    (∀ (s : Surface) (h : DragDropEvent → Bool),
      get_handler (set_drag_drop_handler s h).1 = some h) ∧
    (∀ (s : Surface) (h : DragDropEvent → Bool),
      (set_drag_drop_handler s h).2 = h) ∧
    (∀ (s : Surface) (h1 h2 : DragDropEvent → Bool),
      get_handler
        (set_drag_drop_handler (set_drag_drop_handler s h1).1 h2).1
        = some h2) ∧
    (∀ (w : World) (a b : SurfaceId) (ha hb : DragDropEvent → Bool),
      a ≠ b →
      attachAt (attachAt w a ha) b hb a = (set_drag_drop_handler (w a) ha).1 ∧
      (∀ (d : Defaults) (c : NativeCall),
        interceptCall d (attachAt (attachAt w a ha) b hb a) c =
          interceptCall d (set_drag_drop_handler (w a) ha).1 c)) := by
  refine ⟨fun s h => rfl, fun s h => rfl, fun s h1 h2 => rfl,
    fun w a b ha hb hne => ?_⟩
  have hslot : attachAt (attachAt w a ha) b hb a =
      (set_drag_drop_handler (w a) ha).1 := by
    simp [attachAt, hne]
  exact ⟨hslot, fun d c => by rw [hslot]⟩

/-- Closed instance of C8: surfaces `0` and `1` attach distinct handlers;
the slot at `0` holds the handler attached to `0`. -/
theorem claim_c8_witness :
    (0 : SurfaceId) ≠ 1 ∧
    attachAt (attachAt world0 0 consumeAll) 1 declineAll 0 =
      (set_drag_drop_handler (world0 0) consumeAll).1 :=
  ⟨by decide, (claim_c8_attach_lookup_isolation.2.2.2 world0 0 1 consumeAll
    declineAll (by decide)).1⟩

/-- C9: the interceptors keep no state between calls — in any session, the
outcome of a call is a function of that call's native inputs alone, so two
sessions that end with the same call end with the same outcome, whatever
happened earlier. -/
theorem claim_c9_no_cross_call_state (d : Defaults) (this : Surface)
    (l1 l2 : List NativeCall) (c : NativeCall) :
    (runSession d this (l1 ++ [c])).getLast? = some (interceptCall d this c) ∧
    (runSession d this (l1 ++ [c])).getLast? =
      (runSession d this (l2 ++ [c])).getLast? := by
  constructor <;> simp [runSession]

/-- C10: with a filenames payload, path collection is the per-entry lossy
UTF-8 decode of the NUL-terminated buffers: it never fails, it keeps count
and order, and an invalid lead byte decodes to the replacement character
instead of being dropped. -/
theorem claim_c10_lossy_decode_total (i : DragInfo)
    (hyes : i.hasFilenamesPboardType = true) :
    collect_paths i = i.filenamesPropertyList.map decodeCStringPath ∧
    (collect_paths i).length = i.filenamesPropertyList.length ∧
    (∀ (j : ℕ) (hj : j < (collect_paths i).length)
        (hj2 : j < i.filenamesPropertyList.length),
      (collect_paths i).get ⟨j, hj⟩ =
        decodeCStringPath (i.filenamesPropertyList.get ⟨j, hj2⟩)) ∧
    (∀ (b : ℕ) (rest : List ℕ), 0x80 ≤ b → b ≤ 0xC1 →
      utf8Lossy (b :: rest) = replacementChar :: utf8Lossy rest) := by
  have hmap : collect_paths i = i.filenamesPropertyList.map decodeCStringPath := by
    simp [collect_paths, hyes]
  refine ⟨hmap, by rw [hmap]; simp, fun j hj hj2 => ?_,
    fun b rest h1 h2 => ?_⟩
  · simp only [List.get_eq_getElem]
    rw [List.getElem_of_eq hmap, List.getElem_map]
  · rw [utf8Lossy.eq_def]
    simp only []
    rw [if_neg (by omega), if_neg (by omega), if_neg (by omega),
      if_neg (by omega)]

/-- Closed instance of C10: the concrete filenames payload decodes to the
two-character path `/a`. -/
theorem claim_c10_witness :
    infoFile.hasFilenamesPboardType = true ∧
    collect_paths infoFile = infoFile.filenamesPropertyList.map
      decodeCStringPath :=
  ⟨rfl, (claim_c10_lossy_decode_total infoFile rfl).1⟩

end WryDragDrop
